import Mathlib

/-!
Verification of the host logic of the `shophub-shell-admin` micro-frontend host:
the cart and wishlist callback handlers of `AdminHome`, the derivation of the
rendered module set, the `RemoteErrorBoundary` state machine and its diagnostics
reporting, and the webpack remote-URL resolution.

Conventions of the embedding:
- JS objects handled by the cart/wishlist callbacks are modelled as records with
  the fields the handlers touch (`id`, `price`, `quantity`, `addedBy`) plus a
  `rest` component standing for all remaining fields, which object spread copies
  verbatim.
- A field value of `none` models a field that is absent (`undefined`/`null`) or
  whose JS `Number` coercion is `NaN`; `Number(v) || 0` is therefore
  `Option.getD 0`, and `v ?? d` is `Option.getD d`.
- JS strict equality on `id` values is equality of `Option Int` (two absent ids
  compare equal, as `undefined === undefined` does).
-/

namespace ShopHubAdmin

/-- A product record as handled by the cart callbacks of `AdminHome`.
`rest` stands for all fields other than `id`, `price`, `quantity`. -/
structure Item where
  id : Option Int
  price : Option Int
  quantity : Option Int
  rest : String
deriving DecidableEq

/-- Handler `addToCart` of `AdminHome`: `prev.find((x) => x?.id === product?.id)`
is truthy exactly when an entry with the product's `id` exists (all list elements
are objects); if so every matching entry becomes
`{ ...x, quantity: (x.quantity ?? 1) + 1 }`, otherwise
`{ ...product, quantity: 1 }` is appended. -/
def addToCart (product : Item) (prev : List Item) : List Item :=
  if prev.any (fun x => decide (x.id = product.id)) then
    prev.map (fun x =>
      if x.id = product.id then { x with quantity := some (x.quantity.getD 1 + 1) } else x)
  else
    prev ++ [{ product with quantity := some 1 }]

/-- Handler `removeFromCart`: `prev.filter((x) => x?.id !== productId)`. -/
def removeFromCart (productId : Option Int) (prev : List Item) : List Item :=
  prev.filter (fun x => decide (x.id ≠ productId))

/-- Handler `updateQuantity`: `prev.map((x) => (x?.id === productId ? { ...x, quantity } : x))`. -/
def updateQuantity (productId : Option Int) (quantity : Option Int)
    (prev : List Item) : List Item :=
  prev.map (fun x => if x.id = productId then { x with quantity := quantity } else x)

/-- Handler `clearCart`: `setCartItems([])`. -/
def clearCart (_prev : List Item) : List Item := []

/-- Accessor `getCartTotal`:
`cartItems.reduce((sum, item) => sum + (Number(item?.price) || 0) * (Number(item?.quantity) || 0), 0)`. -/
def getCartTotal (cartItems : List Item) : Int :=
  cartItems.foldl (fun sum item => sum + item.price.getD 0 * item.quantity.getD 0) 0

/-- Accessor `isCartEmpty`: `cartItems.length === 0`. -/
def isCartEmpty (cartItems : List Item) : Bool :=
  cartItems.length == 0

theorem foldl_price_qty (g : Item → Int) (cart : List Item) (a : Int) :
    cart.foldl (fun s it => s + g it) a = a + (cart.map g).sum := by
  induction cart generalizing a with
  | nil => simp
  | cons x xs ih => simp [ih, add_assoc]

/-- C10: `getCartTotal` is a well-defined number equal to the sum over all
entries of `price * quantity`, a missing or non-numeric `price` or `quantity`
counting as `0`; `isCartEmpty` is `true` exactly when the cart has no entries. -/
theorem getCartTotal_spec (cart : List Item) :
    getCartTotal cart = (cart.map (fun it => it.price.getD 0 * it.quantity.getD 0)).sum ∧
    (isCartEmpty cart = true ↔ cart = []) := by
  constructor
  · simpa using foldl_price_qty (fun it => it.price.getD 0 * it.quantity.getD 0) cart 0
  · simp [isCartEmpty, List.length_eq_zero]

/-- C2: `addToCart p` appends `p` with quantity 1 when no entry carries `p`'s id;
otherwise it keeps the length and positions, replaces the quantity `n` of each
entry carrying that id by `n + 1`, and leaves every other entry unchanged.
Twice adding the product with id 1 and price 10 to the empty cart yields exactly
one entry with id 1, price 10 and quantity 2. -/
theorem addToCart_spec (p : Item) (prev : List Item) :
    ((∀ x ∈ prev, x.id ≠ p.id) → addToCart p prev = prev ++ [{ p with quantity := some 1 }]) ∧
    ((∃ x ∈ prev, x.id = p.id) →
      (addToCart p prev).length = prev.length ∧
      ∀ i (hi : i < prev.length) (hi2 : i < (addToCart p prev).length),
        ((prev.get ⟨i, hi⟩).id = p.id →
          ∀ n, (prev.get ⟨i, hi⟩).quantity = some n →
            (addToCart p prev).get ⟨i, hi2⟩ = { prev.get ⟨i, hi⟩ with quantity := some (n + 1) }) ∧
        ((prev.get ⟨i, hi⟩).id ≠ p.id →
          (addToCart p prev).get ⟨i, hi2⟩ = prev.get ⟨i, hi⟩)) ∧
    addToCart ⟨some 1, some 10, none, ""⟩ (addToCart ⟨some 1, some 10, none, ""⟩ [])
      = [⟨some 1, some 10, some 2, ""⟩] := by
  refine ⟨fun habs => ?_, fun hpres => ?_, by decide⟩
  · have hany : prev.any (fun x => decide (x.id = p.id)) = false := by
      rw [Bool.eq_false_iff, Ne, List.any_eq_true]
      rintro ⟨x, hx, hxe⟩
      exact habs x hx (by simpa using hxe)
    simp [addToCart, hany]
  · have hany : prev.any (fun x => decide (x.id = p.id)) = true := by
      rw [List.any_eq_true]
      obtain ⟨x, hx, hxe⟩ := hpres
      exact ⟨x, hx, by simpa using hxe⟩
    refine ⟨by simp [addToCart, hany], ?_⟩
    intro i hi hi2
    constructor
    · intro hid n hq
      have hid2 : prev[i].id = p.id := by simpa [List.get_eq_getElem] using hid
      have hq2 : prev[i].quantity = some n := by simpa [List.get_eq_getElem] using hq
      simp only [addToCart, hany, if_true, List.get_eq_getElem, List.getElem_map]
      rw [if_pos hid2, hq2]
      rfl
    · intro hid
      have hid2 : ¬ prev[i].id = p.id := by simpa [List.get_eq_getElem] using hid
      simp only [addToCart, hany, if_true, List.get_eq_getElem, List.getElem_map]
      rw [if_neg hid2]

/-- C2 witness: `addToCart_spec` applied at a concrete absent-id input. -/
theorem addToCart_spec_app :
    addToCart ⟨some 1, none, none, ""⟩ [⟨some 2, some 5, some 1, ""⟩]
      = [⟨some 2, some 5, some 1, ""⟩, ⟨some 1, none, some 1, ""⟩] :=
  (addToCart_spec ⟨some 1, none, none, ""⟩ [⟨some 2, some 5, some 1, ""⟩]).1 (by decide)

/-- C8: `removeFromCart id` removes exactly the entries whose identity key is
`id`, keeping the others in order and unchanged; `updateQuantity id q` keeps the
length and positions, replaces only the `quantity` field of entries whose
identity key is `id`, and leaves every other entry unchanged. -/
theorem cart_remove_update_frame (pid : Option Int) (q : Option Int) (cart : List Item) :
    (∀ x, x ∈ removeFromCart pid cart ↔ (x ∈ cart ∧ x.id ≠ pid)) ∧
    List.Sublist (removeFromCart pid cart) cart ∧
    (updateQuantity pid q cart).length = cart.length ∧
    (∀ i (hi : i < cart.length) (hi2 : i < (updateQuantity pid q cart).length),
      ((cart.get ⟨i, hi⟩).id = pid →
        (updateQuantity pid q cart).get ⟨i, hi2⟩ = { cart.get ⟨i, hi⟩ with quantity := q }) ∧
      ((cart.get ⟨i, hi⟩).id ≠ pid →
        (updateQuantity pid q cart).get ⟨i, hi2⟩ = cart.get ⟨i, hi⟩)) := by
  refine ⟨fun x => ?_, List.filter_sublist cart, by simp [updateQuantity], ?_⟩
  · simp [removeFromCart, List.mem_filter]
  · intro i hi hi2
    constructor
    · intro hid
      have hid2 : cart[i].id = pid := by simpa [List.get_eq_getElem] using hid
      simp only [updateQuantity, List.get_eq_getElem, List.getElem_map]
      rw [if_pos hid2]
    · intro hid
      have hid2 : ¬ cart[i].id = pid := by simpa [List.get_eq_getElem] using hid
      simp only [updateQuantity, List.get_eq_getElem, List.getElem_map]
      rw [if_neg hid2]

/-- C8 witness: `cart_remove_update_frame` applied at a concrete input. -/
theorem cart_remove_update_frame_app :
    (⟨some 2, some 3, some 1, ""⟩ : Item)
      ∈ removeFromCart (some 1) [⟨some 1, some 5, some 2, ""⟩, ⟨some 2, some 3, some 1, ""⟩] :=
  ((cart_remove_update_frame (some 1) (some 4)
      [⟨some 1, some 5, some 2, ""⟩, ⟨some 2, some 3, some 1, ""⟩]).1
    ⟨some 2, some 3, some 1, ""⟩).mpr ⟨by decide, by decide⟩

/-- The synthetic current-user record `adminUser` of `AdminHome`. -/
structure User where
  name : String
  email : String
  role : String
  permissions : List String
deriving DecidableEq

/-- The constant `adminUser` value (`useMemo` with empty dependency list). -/
def adminUser : User :=
  { name := "Admin", email := "admin@shophub.dev", role := "ADMIN"
  , permissions := ["EDIT", "VIEW_WISHLIST_META"] }

/-- A wishlist entry: a product record plus the `addedBy` field that
`addToWishlist` attaches via object spread. -/
structure WishItem where
  id : Option Int
  price : Option Int
  quantity : Option Int
  rest : String
  addedBy : Option User
deriving DecidableEq

/-- Handler `addToWishlist`: if `prev.some((x) => x?.id === product?.id)` the
wishlist is returned unchanged, otherwise `{ ...product, addedBy: adminUser }`
is prepended (`[entry, ...prev]`). -/
def addToWishlist (product : Item) (prev : List WishItem) : List WishItem :=
  if prev.any (fun x => decide (x.id = product.id)) then prev
  else { id := product.id, price := product.price, quantity := product.quantity
       , rest := product.rest, addedBy := some adminUser } :: prev

/-- C3: adding a product whose id is already present leaves the wishlist
unchanged (set-by-identity membership, no duplicate entry). -/
theorem addToWishlist_absorb (p : Item) (prev : List WishItem)
    (h : ∃ x ∈ prev, x.id = p.id) : addToWishlist p prev = prev := by
  have hany : prev.any (fun x => decide (x.id = p.id)) = true := by
    rw [List.any_eq_true]
    obtain ⟨x, hx, hxe⟩ := h
    exact ⟨x, hx, by simpa using hxe⟩
  simp [addToWishlist, hany]

/-- C3 witness: `addToWishlist_absorb` at a concrete input. -/
theorem addToWishlist_absorb_app :
    addToWishlist ⟨some 1, some 10, none, ""⟩ [⟨some 1, some 10, none, "", some adminUser⟩]
      = [⟨some 1, some 10, none, "", some adminUser⟩] :=
  addToWishlist_absorb ⟨some 1, some 10, none, ""⟩
    [⟨some 1, some 10, none, "", some adminUser⟩]
    ⟨⟨some 1, some 10, none, "", some adminUser⟩, by simp, by decide⟩

/-- C9: adding a product whose id is absent prepends the product, augmented with
`addedBy = adminUser`, at the front of the wishlist, leaving all existing
entries unchanged. -/
theorem addToWishlist_prepend (p : Item) (prev : List WishItem)
    (h : ∀ x ∈ prev, x.id ≠ p.id) :
    addToWishlist p prev
      = { id := p.id, price := p.price, quantity := p.quantity, rest := p.rest
        , addedBy := some adminUser } :: prev := by
  have hany : prev.any (fun x => decide (x.id = p.id)) = false := by
    rw [Bool.eq_false_iff, Ne, List.any_eq_true]
    rintro ⟨x, hx, hxe⟩
    exact h x hx (by simpa using hxe)
  simp [addToWishlist, hany]

/-- C9 witness: `addToWishlist_prepend` at a concrete input. -/
theorem addToWishlist_prepend_app :
    addToWishlist ⟨some 2, some 7, none, "n"⟩ [⟨some 1, some 10, none, "", none⟩]
      = [⟨some 2, some 7, none, "n", some adminUser⟩, ⟨some 1, some 10, none, "", none⟩] :=
  addToWishlist_prepend ⟨some 2, some 7, none, "n"⟩
    [⟨some 1, some 10, none, "", none⟩] (by decide)

/-- An entry of the `items` array of `AdminHome`: menu id, label, and the remote
module materialized by its `render` function. -/
structure MenuItem where
  id : String
  label : String
  moduleSrc : String
deriving DecidableEq

/-- The `items` array of `AdminHome`: the four optional remote modules. -/
def adminItems : List MenuItem :=
  [ ⟨"auth.login", "Auth → Login", "auth/Login"⟩
  , ⟨"catalog.products", "Catalog → Products", "catalog/Products"⟩
  , ⟨"checkout.cart", "Checkout → Cart", "checkout/Cart"⟩
  , ⟨"account.profile", "Account → Profile", "account/Account"⟩ ]

/-- The `selectedItems` memo: `selected.map((id) => byId.get(id)).filter(Boolean)`
with `byId` the map from item id to item (ids in `adminItems` are distinct, so
map lookup is first-match lookup). -/
def selectedItems (selected : List String) : List MenuItem :=
  selected.filterMap (fun i => adminItems.find? (fun x => decide (x.id = i)))

/-- A node of the rendered composition surface: an error boundary, a titled
section card, or a `Suspense`-wrapped lazy materialization of a remote module. -/
inductive RNode where
  | boundary (title : String) (child : RNode)
  | sectionCard (title : String) (child : RNode)
  | suspenseLazy (moduleSrc : String)
deriving DecidableEq

/-- The subtree rendered for one selected menu item: its own
`RemoteErrorBoundary`, a `Section`, and a `Suspense`-wrapped lazy remote. -/
def renderEntry (it : MenuItem) : RNode :=
  RNode.boundary it.label (RNode.sectionCard it.label (RNode.suspenseLazy it.moduleSrc))

/-- The always-present Wishlist subtree of the grid. -/
def wishlistEntry : RNode :=
  RNode.boundary "Wishlist" (RNode.sectionCard "Wishlist" (RNode.suspenseLazy "wishlist/Wishlist"))

/-- The grid of `AdminHome`'s render: the Wishlist subtree followed by one
subtree per selected item (`selectedItems.map(...)`). -/
def renderGrid (selected : List String) : List RNode :=
  wishlistEntry :: (selectedItems selected).map renderEntry

/-- C4: every rendered subtree is one boundary wrapping one deferred (lazy)
materialization, and the rendered set is exactly the always-present Wishlist
module together with the modules currently selected in the multi-select
control. -/
theorem renderGrid_spec (selected : List String) :
    (∀ n ∈ renderGrid selected,
      ∃ t m, n = RNode.boundary t (RNode.sectionCard t (RNode.suspenseLazy m))) ∧
    (∀ n, n ∈ renderGrid selected ↔
      (n = wishlistEntry ∨ ∃ it ∈ adminItems, it.id ∈ selected ∧ n = renderEntry it)) := by
  constructor
  · intro n hn
    rcases List.mem_cons.mp hn with h | h
    · exact ⟨"Wishlist", "wishlist/Wishlist", h⟩
    · obtain ⟨it, _, rfl⟩ := List.mem_map.mp h
      exact ⟨it.label, it.moduleSrc, rfl⟩
  · intro n
    constructor
    · intro hn
      rcases List.mem_cons.mp hn with h | h
      · exact Or.inl h
      · obtain ⟨it, hit, rfl⟩ := List.mem_map.mp h
        obtain ⟨i, hi, hfind⟩ := List.mem_filterMap.mp hit
        have hmem : it ∈ adminItems := List.mem_of_find?_eq_some hfind
        have hid : it.id = i := by
          have := List.find?_some hfind
          simpa using this
        exact Or.inr ⟨it, hmem, hid ▸ hi, rfl⟩
    · rintro (rfl | ⟨it, hmem, hsel, rfl⟩)
      · exact List.mem_cons_self _ _
      · refine List.mem_cons_of_mem _ (List.mem_map.mpr ⟨it, ?_, rfl⟩)
        refine List.mem_filterMap.mpr ⟨it.id, hsel, ?_⟩
        fin_cases hmem <;> rfl

/-- C4 witness: `renderGrid_spec` at a concrete selection. -/
theorem renderGrid_spec_app :
    wishlistEntry ∈ renderGrid ["catalog.products"] :=
  ((renderGrid_spec ["catalog.products"]).2 wishlistEntry).mpr (Or.inl rfl)

/-- A JavaScript value thrown by a crashing remote, as observed by the boundary:
`truthy` is its JS truthiness, `message` its `.message` field when present, and
`asString` the result of the JS `String(...)` coercion. -/
structure JsError where
  truthy : Bool
  message : Option String
  asString : String
deriving DecidableEq

/-- The state of a `RemoteErrorBoundary` instance: its `this.state.error`. -/
structure BoundaryState where
  error : Option JsError
deriving DecidableEq

/-- The constructor: `this.state = { error: null }`. -/
def boundaryInit : BoundaryState := { error := none }

/-- `static getDerivedStateFromError(error) { return { error }; }`. -/
def getDerivedStateFromError (e : JsError) : BoundaryState := { error := some e }

/-- The text shown in the fallback: `String(this.state.error?.message ?? this.state.error)`
(a present `message` is already a string). -/
def errorText (e : JsError) : String := e.message.getD e.asString

/-- What one render of the boundary produces: the wrapped children, or the
fallback `Paper` with its heading and error text. -/
inductive BRender where
  | child
  | fallback (heading : String) (body : String)
deriving DecidableEq

/-- The `render` method: `if (!this.state.error) return this.props.children`,
so a stored FALSY error value still renders the children; otherwise the fallback
shows the heading `title ++ " crashed"` and the error text. -/
def boundaryRender (title : String) (st : BoundaryState) : BRender :=
  match st.error with
  | none => BRender.child
  | some e => if e.truthy then BRender.fallback (title ++ " crashed") (errorText e) else BRender.child

/-- An event in the lifetime of a boundary instance: a failure thrown while its
child subtree renders. -/
inductive BEvent where
  | childFailure (e : JsError)
deriving DecidableEq

/-- React applies `getDerivedStateFromError` to the thrown value. -/
def boundaryStep (_st : BoundaryState) : BEvent → BoundaryState
  | BEvent.childFailure e => getDerivedStateFromError e

/-- The state after a sequence of lifetime events. -/
def runBoundary (st : BoundaryState) (evs : List BEvent) : BoundaryState :=
  evs.foldl boundaryStep st

/-- A lifetime trace is realizable only if each failure is raised while the
boundary actually renders its child subtree. -/
inductive Realizable (title : String) : BoundaryState → List BEvent → Prop
  | nil (st : BoundaryState) : Realizable title st []
  | cons (st : BoundaryState) (ev : BEvent) (evs : List BEvent) :
      boundaryRender title st = BRender.child →
      Realizable title (boundaryStep st ev) evs →
      Realizable title st (ev :: evs)

/-- C5 counterexample: a remote that throws the falsy value `""` has its failure
captured (`state.error` is set to it along a realizable trace), yet the next
render still renders the child — an automatic retry, contradicting the claim. -/
theorem boundary_falsy_retry :
    runBoundary boundaryInit [BEvent.childFailure ⟨false, none, ""⟩]
      = { error := some ⟨false, none, ""⟩ } ∧
    Realizable "Wishlist" boundaryInit [BEvent.childFailure ⟨false, none, ""⟩] ∧
    boundaryRender "Wishlist" (runBoundary boundaryInit [BEvent.childFailure ⟨false, none, ""⟩])
      = BRender.child :=
  ⟨rfl, Realizable.cons _ _ _ rfl (Realizable.nil _), rfl⟩

/-- C5 (amended): once a failure carrying a TRUTHY error value has been
captured, the boundary never renders its child again for the remainder of its
lifetime (no realizable event can change its state), and every subsequent
render is the fallback presentation carrying the label and the human-readable
error text. -/
theorem boundary_no_retry (title : String) (st : BoundaryState) (e : JsError)
    (he : st.error = some e) (ht : e.truthy = true) :
    boundaryRender title st = BRender.fallback (title ++ " crashed") (errorText e) ∧
    boundaryRender title st ≠ BRender.child ∧
    ∀ evs, Realizable title st evs → runBoundary st evs = st := by
  have hr : boundaryRender title st = BRender.fallback (title ++ " crashed") (errorText e) := by
    simp [boundaryRender, he, ht]
  refine ⟨hr, by simp [hr], ?_⟩
  intro evs hreal
  cases hreal with
  | nil => rfl
  | cons s2 ev evs hchild _ => rw [hr] at hchild; exact absurd hchild (by simp)

/-- C5 witness: `boundary_no_retry` at a concrete captured error. -/
theorem boundary_no_retry_app :
    boundaryRender "Wishlist" { error := some ⟨true, some "boom", "Error: boom"⟩ }
      = BRender.fallback "Wishlist crashed" "boom" :=
  (boundary_no_retry "Wishlist" { error := some ⟨true, some "boom", "Error: boom"⟩ }
    ⟨true, some "boom", "Error: boom"⟩ rfl rfl).1

/-- An argument of a diagnostics call: a string or the thrown error value. -/
inductive DiagArg where
  | str (s : String)
  | errVal (e : JsError)
deriving DecidableEq

/-- The observable effects of one `componentDidCatch` invocation: the console
log entry, and the argument list of the `zipy.logException` call when it
happens (`none` when `window.zipy` is absent). -/
structure CatchOutcome where
  consoleArgs : List DiagArg
  zipyCall : Option (List DiagArg)
deriving DecidableEq

/-- `componentDidCatch(error)`: logs
`console.error('[admin-host] Remote crashed:', this.props?.title, error)` and,
only when `window.zipy` is present, calls `window.zipy.logException(error)`. -/
def componentDidCatch (zipyPresent : Bool) (title : String) (e : JsError) : CatchOutcome :=
  { consoleArgs := [DiagArg.str "[admin-host] Remote crashed:", DiagArg.str title, DiagArg.errVal e]
  , zipyCall := if zipyPresent then some [DiagArg.errVal e] else none }

/-- C6 counterexample: with the diagnostics collaborator (`window.zipy`)
present, the boundary does not invoke it with the label and the error — the
call carries the error alone. -/
theorem diag_missing_label :
    (componentDidCatch true "Wishlist" ⟨true, some "boom", "Error: boom"⟩).zipyCall
      ≠ some [DiagArg.str "Wishlist", DiagArg.errVal ⟨true, some "boom", "Error: boom"⟩] := by
  decide

/-- C6 (amended): on every contained failure the boundary invokes the
diagnostics collaborator with the error alone (the label is part of the console
log entry, not of the collaborator call), and when the collaborator is absent
the feature-detected call simply does not happen, producing the same
well-defined outcome with no additional failure. -/
theorem componentDidCatch_spec (zp : Bool) (title : String) (e : JsError) :
    (zp = true → (componentDidCatch zp title e).zipyCall = some [DiagArg.errVal e]) ∧
    (zp = false → (componentDidCatch zp title e).zipyCall = none) ∧
    (componentDidCatch zp title e).consoleArgs
      = [DiagArg.str "[admin-host] Remote crashed:", DiagArg.str title, DiagArg.errVal e] := by
  refine ⟨fun h => ?_, fun h => ?_, rfl⟩ <;> simp [componentDidCatch, h]

/-- C6 witness: `componentDidCatch_spec` with the collaborator present. -/
theorem componentDidCatch_spec_app :
    (componentDidCatch true "Wishlist" ⟨true, some "boom", "Error: boom"⟩).zipyCall
      = some [DiagArg.errVal ⟨true, some "boom", "Error: boom"⟩] :=
  (componentDidCatch_spec true "Wishlist" ⟨true, some "boom", "Error: boom"⟩).1 rfl

/-- The five remote module names of the webpack Module Federation config. -/
inductive RemoteName where
  | auth | catalog | checkout | wishlist | account
deriving DecidableEq

/-- The optional `SHOPHUB_*_REMOTE_URL` environment-variable overrides
(`none` models an unset variable, i.e. `undefined` under `??`). -/
structure RemoteEnv where
  authUrl : Option String
  catalogUrl : Option String
  checkoutUrl : Option String
  wishlistUrl : Option String
  accountUrl : Option String
deriving DecidableEq

/-- The override read for each remote name. -/
def envOverride (env : RemoteEnv) : RemoteName → Option String
  | RemoteName.auth => env.authUrl
  | RemoteName.catalog => env.catalogUrl
  | RemoteName.checkout => env.checkoutUrl
  | RemoteName.wishlist => env.wishlistUrl
  | RemoteName.account => env.accountUrl

/-- The hardcoded production (Netlify) default per remote. -/
def prodDefaultUrl : RemoteName → String
  | RemoteName.auth => "https://shophub-auth-2.netlify.app/remoteEntry.js"
  | RemoteName.catalog => "https://shophub-catalog-2.netlify.app/remoteEntry.js"
  | RemoteName.checkout => "https://shophub-checkout-2.netlify.app/remoteEntry.js"
  | RemoteName.wishlist => "https://shophub-wishlist-2.netlify.app/remoteEntry.js"
  | RemoteName.account => "https://shophub-account-2.netlify.app/remoteEntry.js"

/-- The hardcoded local development default per remote. -/
def devDefaultUrl : RemoteName → String
  | RemoteName.auth => "http://localhost:5174/remoteEntry.js"
  | RemoteName.catalog => "http://localhost:5175/remoteEntry.js"
  | RemoteName.checkout => "http://localhost:5176/remoteEntry.js"
  | RemoteName.wishlist => "http://localhost:5177/remoteEntry.js"
  | RemoteName.account => "http://localhost:5178/remoteEntry.js"

/-- The remote URL resolution of the webpack config:
`process.env.SHOPHUB_X_REMOTE_URL ?? (isProd ? prodDefault : devDefault)`. -/
def resolveRemoteUrl (env : RemoteEnv) (isProd : Bool) (n : RemoteName) : String :=
  (envOverride env n).getD (if isProd then prodDefaultUrl n else devDefaultUrl n)

/-- C7: the resolver returns the explicit environment-variable override when it
is set, otherwise the environment-specific default (production default in
production mode, local development default otherwise); a default exists for
every remote name and is never the empty string, so no silent empty endpoint is
produced. -/
theorem resolveRemoteUrl_spec (env : RemoteEnv) (isProd : Bool) (n : RemoteName) :
    (∀ u, envOverride env n = some u → resolveRemoteUrl env isProd n = u) ∧
    (envOverride env n = none →
      resolveRemoteUrl env isProd n = (if isProd then prodDefaultUrl n else devDefaultUrl n)) ∧
    prodDefaultUrl n ≠ "" ∧ devDefaultUrl n ≠ "" := by
  refine ⟨fun u hu => ?_, fun h => ?_, ?_, ?_⟩
  · simp [resolveRemoteUrl, hu]
  · simp [resolveRemoteUrl, h]
  · cases n <;> decide
  · cases n <;> decide

/-- C7 witness: `resolveRemoteUrl_spec` at a concrete environment with an
override set for the auth remote. -/
theorem resolveRemoteUrl_spec_app :
    resolveRemoteUrl ⟨some "http://localhost:9999/remoteEntry.js", none, none, none, none⟩
        true RemoteName.auth
      = "http://localhost:9999/remoteEntry.js" :=
  (resolveRemoteUrl_spec ⟨some "http://localhost:9999/remoteEntry.js", none, none, none, none⟩
      true RemoteName.auth).1 "http://localhost:9999/remoteEntry.js" rfl

/-- One cart operation as invocable by the remote modules through the
callback props of `AdminHome`. -/
inductive CartOp where
  | add (p : Item)
  | remove (pid : Option Int)
  | update (pid : Option Int) (q : Option Int)
  | clear
deriving DecidableEq

/-- Apply one cart operation through the corresponding handler. -/
def applyOp : CartOp → List Item → List Item
  | CartOp.add p, cart => addToCart p cart
  | CartOp.remove pid, cart => removeFromCart pid cart
  | CartOp.update pid q, cart => updateQuantity pid q cart
  | CartOp.clear, cart => clearCart cart

/-- Apply a sequence of cart operations in order. -/
def applyOps (ops : List CartOp) (cart : List Item) : List Item :=
  ops.foldl (fun c op => applyOp op c) cart

/-- The quantity field of the (first) cart entry carrying the identity key
`key`: `none` when no such entry exists, `some q` when one exists and its
quantity field is `q`. -/
def lookupQty (key : Option Int) (cart : List Item) : Option (Option Int) :=
  (cart.find? (fun x => decide (x.id = key))).map Item.quantity

/-- Specification-side comparator, following the spec's words: the net effect
of one operation on the single identity key `key`, where `none` means no entry
for that key and `some q` an entry whose quantity field is `q`. -/
def netStep (key : Option Int) : CartOp → Option (Option Int) → Option (Option Int)
  | CartOp.add p, s =>
      if p.id = key then
        match s with
        | some q => some (some (q.getD 1 + 1))
        | none => some (some 1)
      else s
  | CartOp.remove pid, s => if pid = key then none else s
  | CartOp.update pid q, s =>
      if pid = key then
        match s with
        | some _ => some q
        | none => none
      else s
  | CartOp.clear, _ => none

/-- Specification-side comparator: the net effect of a sequence of operations
on the single identity key `key`, applied in order. -/
def netEffect (key : Option Int) (ops : List CartOp) (s : Option (Option Int)) :
    Option (Option Int) :=
  ops.foldl (fun acc op => netStep key op acc) s

theorem find?_id_map (g : Item → Item) (hg : ∀ x, (g x).id = x.id)
    (key : Option Int) (cart : List Item) :
    (cart.map g).find? (fun x => decide (x.id = key))
      = (cart.find? (fun x => decide (x.id = key))).map g := by
  have hp : ((fun x : Item => decide (x.id = key)) ∘ g) = fun x : Item => decide (x.id = key) := by
    funext x
    simp [Function.comp, hg]
  rw [List.find?_map, hp]

theorem lookupQty_addToCart (p : Item) (key : Option Int) (cart : List Item) :
    lookupQty key (addToCart p cart) = netStep key (CartOp.add p) (lookupQty key cart) := by
  by_cases hpres : cart.any (fun x => decide (x.id = p.id)) = true
  · have hgid : ∀ x : Item,
        ((fun x => if x.id = p.id then { x with quantity := some (x.quantity.getD 1 + 1) } else x) x).id
          = x.id := by
      intro x
      by_cases hx : x.id = p.id <;> simp [hx]
    unfold addToCart lookupQty
    rw [if_pos hpres, find?_id_map _ hgid]
    cases hfind : cart.find? (fun x => decide (x.id = key)) with
    | none =>
      by_cases hk : p.id = key
      · rw [List.find?_eq_none] at hfind
        rw [List.any_eq_true] at hpres
        obtain ⟨x, hx, hxe⟩ := hpres
        have hxk : x.id = key := by rw [← hk]; simpa using hxe
        exact absurd (by simpa using hxk) (hfind x hx)
      · simp [netStep, lookupQty, hfind, hk]
    | some x0 =>
      have hx0 : x0.id = key := by simpa using List.find?_some hfind
      by_cases hk : p.id = key
      · have hxp : x0.id = p.id := by rw [hx0, hk]
        simp [netStep, lookupQty, hfind, hk, hxp]
      · have hxp : ¬ x0.id = p.id := by rw [hx0]; exact fun hc => hk hc.symm
        simp [netStep, lookupQty, hfind, hk, hxp]
  · have habs : ∀ x ∈ cart, ¬ x.id = p.id := by
      intro x hx hc
      exact hpres (List.any_eq_true.mpr ⟨x, hx, by simpa using hc⟩)
    unfold addToCart lookupQty
    rw [if_neg hpres, List.find?_append]
    by_cases hk : p.id = key
    · have hnone : cart.find? (fun x => decide (x.id = key)) = none := by
        rw [List.find?_eq_none]
        intro x hx
        simpa [hk] using habs x hx
      rw [hnone]
      simp [netStep, lookupQty, hnone, hk, List.find?]
    · have hsingle : ([({ p with quantity := some 1 } : Item)].find?
          (fun x => decide (x.id = key))) = none := by
        simp [List.find?, hk]
      rw [hsingle]
      simp [netStep, lookupQty, hk]

theorem lookupQty_removeFromCart (pid key : Option Int) (cart : List Item) :
    lookupQty key (removeFromCart pid cart)
      = netStep key (CartOp.remove pid) (lookupQty key cart) := by
  unfold removeFromCart lookupQty
  rw [List.find?_filter]
  by_cases hk : pid = key
  · subst hk
    have hfalse : (fun a : Item =>
        decide ((decide (a.id ≠ pid)) = true ∧ (decide (a.id = pid)) = true)) = fun _ => false := by
      funext a
      by_cases ha : a.id = pid <;> simp [ha]
    rw [hfalse]
    have hnone : cart.find? (fun _ : Item => false) = none :=
      List.find?_eq_none.mpr (fun x _ => by simp)
    simp [hnone, netStep]
  · have hsame : (fun a : Item =>
        decide ((decide (a.id ≠ pid)) = true ∧ (decide (a.id = key)) = true))
          = fun a : Item => decide (a.id = key) := by
      funext a
      have h2 : ¬ key = pid := fun hc => hk hc.symm
      by_cases ha : a.id = key
      · simp [ha, h2]
      · simp [ha]
    rw [hsame]
    simp [netStep, hk]

theorem lookupQty_updateQuantity (pid q key : Option Int) (cart : List Item) :
    lookupQty key (updateQuantity pid q cart)
      = netStep key (CartOp.update pid q) (lookupQty key cart) := by
  have hgid : ∀ x : Item,
      ((fun x => if x.id = pid then { x with quantity := q } else x) x).id = x.id := by
    intro x
    by_cases hx : x.id = pid <;> simp [hx]
  unfold updateQuantity lookupQty
  rw [find?_id_map _ hgid]
  cases hfind : cart.find? (fun x => decide (x.id = key)) with
  | none => by_cases hk : pid = key <;> simp [netStep, hk]
  | some x0 =>
    have hx0 : x0.id = key := by simpa using List.find?_some hfind
    by_cases hk : pid = key
    · have hxp : x0.id = pid := by rw [hx0, hk]
      simp [netStep, hk, hxp]
    · have hxp : ¬ x0.id = pid := by rw [hx0]; exact fun hc => hk hc.symm
      simp [netStep, hk, hxp]

theorem lookupQty_applyOp (op : CartOp) (key : Option Int) (cart : List Item) :
    lookupQty key (applyOp op cart) = netStep key op (lookupQty key cart) := by
  cases op with
  | add p => exact lookupQty_addToCart p key cart
  | remove pid => exact lookupQty_removeFromCart pid key cart
  | update pid q => exact lookupQty_updateQuantity pid q key cart
  | clear => rfl

theorem lookupQty_applyOps (ops : List CartOp) (key : Option Int) (cart : List Item) :
    lookupQty key (applyOps ops cart) = netEffect key ops (lookupQty key cart) := by
  induction ops generalizing cart with
  | nil => rfl
  | cons op ops ih =>
    show lookupQty key (applyOps ops (applyOp op cart))
      = netEffect key ops (netStep key op (lookupQty key cart))
    rw [ih, lookupQty_applyOp]

theorem nodup_ids_applyOp (op : CartOp) (cart : List Item)
    (h : (cart.map Item.id).Nodup) : ((applyOp op cart).map Item.id).Nodup := by
  cases op with
  | add p =>
    show ((addToCart p cart).map Item.id).Nodup
    by_cases hpres : cart.any (fun x => decide (x.id = p.id)) = true
    · unfold addToCart
      rw [if_pos hpres, List.map_map]
      have hcomp : (Item.id ∘ fun x : Item =>
          if x.id = p.id then { x with quantity := some (x.quantity.getD 1 + 1) } else x)
            = Item.id := by
        funext x
        by_cases hx : x.id = p.id <;> simp [Function.comp, hx]
      rw [hcomp]
      exact h
    · unfold addToCart
      rw [if_neg hpres, List.map_append, List.nodup_append]
      refine ⟨h, by simp, ?_⟩
      intro a ha hb
      simp only [List.map_cons, List.map_nil, List.mem_singleton] at hb
      obtain ⟨x, hx, rfl⟩ := List.mem_map.mp ha
      have hxna : ¬ x.id = p.id := by
        intro hc
        exact hpres (List.any_eq_true.mpr ⟨x, hx, by simpa using hc⟩)
      exact hxna (by simpa using hb)
  | remove pid =>
    exact List.Nodup.sublist ((List.filter_sublist cart).map Item.id) h
  | update pid q =>
    show ((updateQuantity pid q cart).map Item.id).Nodup
    unfold updateQuantity
    rw [List.map_map]
    have hcomp : (Item.id ∘ fun x : Item =>
        if x.id = pid then { x with quantity := q } else x) = Item.id := by
      funext x
      by_cases hx : x.id = pid <;> simp [Function.comp, hx]
    rw [hcomp]
    exact h
  | clear => simp [applyOp, clearCart]

theorem nodup_ids_applyOps (ops : List CartOp) (cart : List Item)
    (h : (cart.map Item.id).Nodup) : ((applyOps ops cart).map Item.id).Nodup := by
  induction ops generalizing cart with
  | nil => exact h
  | cons op ops ih =>
    show ((applyOps ops (applyOp op cart)).map Item.id).Nodup
    exact ih _ (nodup_ids_applyOp op cart h)

/-- C1: after any sequence of add / remove / update-quantity / clear operations
on the initially empty cart, the cart contains at most one entry per identity
key (its id projection has no duplicates), and for every key the entry present
for that key — and its quantity field — equals the net effect of the operations
applied to that key in order. -/
theorem cart_ops_invariant (ops : List CartOp) :
    ((applyOps ops []).map Item.id).Nodup ∧
    ∀ key, lookupQty key (applyOps ops []) = netEffect key ops none := by
  constructor
  · exact nodup_ids_applyOps ops [] (by simp)
  · intro key
    exact lookupQty_applyOps ops key []

end ShopHubAdmin
